import Mathlib

/-!
Verification development for the MG-GEN AI-client core: the multi-provider
image edit and content-generation dispatcher (src/ai_client/chat.py) and the
OCR refinement pass (src/modules/ocr/deepseek_refine.py).

Python values are shallowly embedded: PIL images become a concrete record of
width, height, pixel mode and a flat byte list; JSON payloads become an
inductive value type; external calls (HTTP transport, the provider SDK, PIL
crop) become explicit oracle functions passed in as arguments, whose
outcomes include an abstract exception constructor; Python exceptions that
propagate become the error branch of an Except result.
-/

/-- A JSON-like value, used to embed the duck-typed payloads the Python code
reads with dict lookups (provider responses, message bodies). -/
inductive JVal where
  | s : String → JVal
  | n : Int → JVal
  | arr : List JVal → JVal
  | obj : List (String × JVal) → JVal
  | null : JVal

/-- Dict lookup, as Python data.get(key): returns the first binding. -/
def jGet : JVal → String → Option JVal
  | JVal.obj kvs, k => kvs.lookup k
  | _, _ => none

/-- Python str() applied to a JSON-decoded value (used by the OCR refiner on
first item of outputs). Only the string case matters to the claims. -/
def pyStr : JVal → String
  | JVal.s t => t
  | JVal.n i => toString i
  | JVal.arr _ => "[...]"
  | JVal.obj _ => "dict"
  | JVal.null => "None"

/-- PIL pixel modes that occur in the code under verification. -/
inductive RasterMode where
  | L : RasterMode
  | RGB : RasterMode
  | RGBA : RasterMode
deriving DecidableEq, Repr

/-- A PIL image: dimensions, pixel mode, and the flat row-major byte list
(1 byte per pixel for L, 3 for RGB, 4 for RGBA). -/
structure Img where
  width : Nat
  height : Nat
  mode : RasterMode
  pixels : List Nat
deriving DecidableEq, Repr

/-- L pixels to RGB pixels: PIL replicates the gray byte to three channels. -/
def grayToRGB : List Nat → List Nat
  | v :: rest => v :: v :: v :: grayToRGB rest
  | [] => []

/-- RGBA pixels to RGB pixels: PIL drops the alpha byte. -/
def dropAlpha : List Nat → List Nat
  | r :: g :: b :: _a :: rest => r :: g :: b :: dropAlpha rest
  | _ => []

/-- RGB pixels to L pixels with the documented PIL luma formula
L = (299 R + 587 G + 114 B) / 1000. -/
def rgbToGray : List Nat → List Nat
  | r :: g :: b :: rest => ((299 * r + 587 * g + 114 * b) / 1000) :: rgbToGray rest
  | _ => []

/-- Models PIL Image.convert("RGB"). -/
def Img.convertRGB (i : Img) : Img :=
  match i.mode with
  | RasterMode.L => ⟨i.width, i.height, RasterMode.RGB, grayToRGB i.pixels⟩
  | RasterMode.RGB => i
  | RasterMode.RGBA => ⟨i.width, i.height, RasterMode.RGB, dropAlpha i.pixels⟩

/-- Models PIL Image.convert("L"). -/
def Img.convertL (i : Img) : Img :=
  match i.mode with
  | RasterMode.L => i
  | RasterMode.RGB => ⟨i.width, i.height, RasterMode.L, rgbToGray i.pixels⟩
  | RasterMode.RGBA => ⟨i.width, i.height, RasterMode.L, rgbToGray (dropAlpha i.pixels)⟩

/-! ### Base64 codec

The code calls base64.b64encode / base64.b64decode on the bytes of a saved
image. We embed RFC 4648 base64 over byte lists concretely. -/

/-- The base64 alphabet. -/
def b64Alphabet : List Char :=
  "ABCDEFGHIJKLMNOPQRSTUVWXYZabcdefghijklmnopqrstuvwxyz0123456789+/".toList

/-- Index of a character in a character list. -/
def charIndex : List Char → Char → Option Nat
  | [], _ => none
  | a :: rest, c => if a = c then some 0 else (charIndex rest c).map (· + 1)

/-- The base64 digit character for a 6-bit value. -/
def encB64Char (v : Nat) : Char := b64Alphabet.getD v 'A'

/-- The 6-bit value of a base64 digit character. -/
def decB64Char (c : Char) : Option Nat := charIndex b64Alphabet c

/-- Base64-encode a byte list, with padding. -/
def b64encodeList : List Nat → List Char
  | [] => []
  | [a] => [encB64Char (a / 4), encB64Char (a % 4 * 16), '=', '=']
  | [a, b] => [encB64Char (a / 4), encB64Char (a % 4 * 16 + b / 16),
      encB64Char (b % 16 * 4), '=']
  | a :: b :: c :: rest =>
      encB64Char (a / 4) :: encB64Char (a % 4 * 16 + b / 16) ::
      encB64Char (b % 16 * 4 + c / 64) :: encB64Char (c % 64) :: b64encodeList rest

/-- Base64-decode a character list; none models binascii.Error. -/
def b64decodeList : List Char → Option (List Nat)
  | [] => some []
  | c1 :: c2 :: c3 :: c4 :: rest =>
    match decB64Char c1, decB64Char c2 with
    | some x1, some x2 =>
      if c3 = '=' then
        if c4 = '=' ∧ rest = [] then some [x1 * 4 + x2 / 16] else none
      else
        match decB64Char c3 with
        | some x3 =>
          if c4 = '=' then
            if rest = [] then some [x1 * 4 + x2 / 16, x2 % 16 * 16 + x3 / 4] else none
          else
            match decB64Char c4 with
            | some x4 =>
              (b64decodeList rest).map
                (fun tl => (x1 * 4 + x2 / 16) :: (x2 % 16 * 16 + x3 / 4) ::
                  (x3 % 4 * 64 + x4) :: tl)
            | none => none
        | none => none
    | _, _ => none
  | _ => none

/-- Base64-encode bytes to a Lean string (models .decode of utf-8 on ASCII). -/
def b64encodeStr (bs : List Nat) : String := String.mk (b64encodeList bs)

/-- Base64-decode from a string. -/
def b64decodeStr (s : String) : Option (List Nat) := b64decodeList s.data

theorem decB64Char_encB64Char : ∀ v : Nat, v < 64 → decB64Char (encB64Char v) = some v := by
  decide

theorem encB64Char_ne_eq : ∀ v : Nat, v < 64 → encB64Char v ≠ '=' := by
  decide

theorem mulAddDiv16 (m r : Nat) (h : r < 16) : (m * 16 + r) / 16 = m := by omega

theorem mulAddMod16 (m r : Nat) (h : r < 16) : (m * 16 + r) % 16 = r := by omega

theorem mulAddDiv4 (m r : Nat) (h : r < 4) : (m * 4 + r) / 4 = m := by omega

theorem mulAddMod4 (m r : Nat) (h : r < 4) : (m * 4 + r) % 4 = r := by omega

theorem mulDiv16 (m : Nat) : m * 16 / 16 = m := by omega

theorem mulDiv4 (m : Nat) : m * 4 / 4 = m := by omega

theorem b64_roundtrip (bs : List Nat) (hb : ∀ b ∈ bs, b < 256) :
    b64decodeList (b64encodeList bs) = some bs := by
  induction bs using b64encodeList.induct with
  | case1 => rfl
  | case2 a =>
    have ha : a < 256 := hb a (by simp)
    have h1 : a / 4 < 64 := by omega
    have h2 : a % 4 * 16 < 64 := by omega
    have e1 : a % 4 * 16 / 16 = a % 4 := mulDiv16 _
    simp [b64encodeList, b64decodeList, e1,
      decB64Char_encB64Char _ h1, decB64Char_encB64Char _ h2]
    omega
  | case3 a b =>
    have ha : a < 256 := hb a (by simp)
    have hbb : b < 256 := hb b (by simp)
    have h1 : a / 4 < 64 := by omega
    have h2 : a % 4 * 16 + b / 16 < 64 := by omega
    have h3 : b % 16 * 4 < 64 := by omega
    have h3ne := encB64Char_ne_eq _ h3
    have e1 : (a % 4 * 16 + b / 16) / 16 = a % 4 := mulAddDiv16 _ _ (by omega)
    have e2 : (a % 4 * 16 + b / 16) % 16 = b / 16 := mulAddMod16 _ _ (by omega)
    have e3 : b % 16 * 4 / 4 = b % 16 := mulDiv4 _
    simp [b64encodeList, b64decodeList, h3ne, e1, e2, e3,
      decB64Char_encB64Char _ h1, decB64Char_encB64Char _ h2,
      decB64Char_encB64Char _ h3]
    omega
  | case4 a b c rest ih =>
    have ha : a < 256 := hb a (by simp)
    have hbb : b < 256 := hb b (by simp)
    have hc : c < 256 := hb c (by simp)
    have h1 : a / 4 < 64 := by omega
    have h2 : a % 4 * 16 + b / 16 < 64 := by omega
    have h3 : b % 16 * 4 + c / 64 < 64 := by omega
    have h4 : c % 64 < 64 := by omega
    have h3ne := encB64Char_ne_eq _ h3
    have h4ne := encB64Char_ne_eq _ h4
    have ih2 := ih (fun x hx => hb x (by simp [hx]))
    have e1 : (a % 4 * 16 + b / 16) / 16 = a % 4 := mulAddDiv16 _ _ (by omega)
    have e2 : (a % 4 * 16 + b / 16) % 16 = b / 16 := mulAddMod16 _ _ (by omega)
    have e3 : (b % 16 * 4 + c / 64) / 4 = b % 16 := mulAddDiv4 _ _ (by omega)
    have e4 : (b % 16 * 4 + c / 64) % 4 = c / 64 := mulAddMod4 _ _ (by omega)
    simp [b64encodeList, b64decodeList, h3ne, h4ne, ih2, e1, e2, e3, e4,
      decB64Char_encB64Char _ h1, decB64Char_encB64Char _ h2,
      decB64Char_encB64Char _ h3, decB64Char_encB64Char _ h4]
    omega

/-! ### Lossless image container

upload_image (chat.py lines 27-37) saves the PIL image with format PNG and
base64-encodes the bytes; the inverse is PIL Image.open on the decoded
bytes. PNG itself is an external library codec; its contract, used by the
code, is that PNG is a lossless container. We model the codec pair by a
concrete injective serialization with an explicit parser, which realizes
exactly that lossless contract: every field of the image, including every
pixel byte, is written to and read back from the byte stream. -/

/-- Unary length encoding of a natural number used by the container model. -/
def natUnary : Nat → List Nat
  | 0 => [0]
  | n + 1 => 1 :: natUnary n

/-- Parse a unary-encoded natural, returning it with the remaining bytes. -/
def parseUnary : List Nat → Option (Nat × List Nat)
  | 0 :: rest => some (0, rest)
  | 1 :: rest =>
    match parseUnary rest with
    | some (n, r) => some (n + 1, r)
    | none => none
  | _ => none

/-- Byte tag of a pixel mode in the container model. -/
def modeTag : RasterMode → Nat
  | RasterMode.L => 0
  | RasterMode.RGB => 1
  | RasterMode.RGBA => 2

/-- Parse a mode tag byte. -/
def parseModeTag : Nat → Option RasterMode
  | 0 => some RasterMode.L
  | 1 => some RasterMode.RGB
  | 2 => some RasterMode.RGBA
  | _ => none

/-- Models PIL image.save(buffer, format PNG): the lossless container bytes. -/
def pngSave (i : Img) : List Nat :=
  natUnary i.width ++ natUnary i.height ++ (modeTag i.mode :: i.pixels)

/-- Models PIL Image.open on container bytes; none models a decoding error
(PIL UnidentifiedImageError). -/
def pngOpen (bs : List Nat) : Option Img :=
  match parseUnary bs with
  | none => none
  | some (w, r1) =>
    match parseUnary r1 with
    | none => none
    | some (h, r2) =>
      match r2 with
      | [] => none
      | t :: pix =>
        match parseModeTag t with
        | none => none
        | some m => some ⟨w, h, m, pix⟩

theorem parseUnary_natUnary (n : Nat) (rest : List Nat) :
    parseUnary (natUnary n ++ rest) = some (n, rest) := by
  induction n with
  | zero => rfl
  | succ k ih => simp [natUnary, parseUnary, ih]

theorem parseModeTag_modeTag (m : RasterMode) : parseModeTag (modeTag m) = some m := by
  cases m <;> rfl

theorem pngOpen_pngSave (i : Img) : pngOpen (pngSave i) = some i := by
  simp [pngSave, pngOpen, List.append_assoc, parseUnary_natUnary, parseModeTag_modeTag]

theorem natUnary_lt_256 (n : Nat) : ∀ b ∈ natUnary n, b < 256 := by
  induction n with
  | zero => simp [natUnary]
  | succ k ih => simp [natUnary]; exact fun b hb => ih b hb

theorem modeTag_lt_256 (m : RasterMode) : modeTag m < 256 := by cases m <;> simp [modeTag]

theorem pngSave_bytes_lt_256 (i : Img) (hp : ∀ p ∈ i.pixels, p < 256) :
    ∀ b ∈ pngSave i, b < 256 := by
  intro b hb
  simp [pngSave] at hb
  rcases hb with h | h | h | h
  · exact natUnary_lt_256 _ _ h
  · exact natUnary_lt_256 _ _ h
  · exact h ▸ modeTag_lt_256 _
  · exact hp _ h

/-- Models OpenRouterClient.upload_image (chat.py lines 27-37): save the
image to the lossless PNG container, then base64-encode the bytes. -/
def upload_image (img : Img) : String := b64encodeStr (pngSave img)

/-- The inverse direction used throughout the code: base64-decode the string
and open the resulting bytes as an image. -/
def decodeImageB64 (s : String) : Option Img :=
  match b64decodeStr s with
  | none => none
  | some bs => pngOpen bs

/-- C9: for every in-memory raster image I (with byte-valued pixels),
encoding via the lossless container plus base64 and decoding the result
yields an image pixel-identical to I: a lossless round-trip. -/
theorem encode_decode_roundtrip (I : Img) (hp : ∀ p ∈ I.pixels, p < 256) :
    decodeImageB64 (upload_image I) = some I := by
  have hbytes := pngSave_bytes_lt_256 I hp
  simp only [decodeImageB64, upload_image, b64encodeStr, b64decodeStr]
  rw [b64_roundtrip _ hbytes]
  exact pngOpen_pngSave I

/-- Witness for C9 at a concrete one-pixel grayscale image. -/
theorem encode_decode_roundtrip_witness :
    decodeImageB64 (upload_image ⟨1, 1, RasterMode.L, [7]⟩) = some ⟨1, 1, RasterMode.L, [7]⟩ :=
  encode_decode_roundtrip ⟨1, 1, RasterMode.L, [7]⟩ (by decide)

/-! ### Mask transform (chat.py lines 233-244, inside _edit_image_openai)

The code converts the mask to mode L if needed, builds alpha with
mask.point(lambda p: 255 - p), creates a new RGBA image of mask.size filled
with (0, 0, 0, 0) and calls putalpha(alpha). -/

/-- RGBA bytes of the transmitted edit mask: for each grayscale byte v the
four bytes 0, 0, 0, 255 - v. -/
def editMaskPixels : List Nat → List Nat
  | v :: rest => 0 :: 0 :: 0 :: (255 - v) :: editMaskPixels rest
  | [] => []

/-- The mask transform of _edit_image_openai: reduce to L, then build the
RGBA transparency mask with inverted alpha and zero RGB. -/
def toEditMask (mask : Img) : Img :=
  let m := if mask.mode = RasterMode.L then mask else mask.convertL
  ⟨m.width, m.height, RasterMode.RGBA, editMaskPixels m.pixels⟩

theorem cons4_getElem (a b c d : Nat) (l : List Nat) (n : Nat) :
    (a :: b :: c :: d :: l)[n + 4]? = l[n]? := by
  rw [show n + 4 = n + 1 + 1 + 1 + 1 from rfl]
  simp [List.getElem?_cons_succ]

theorem editMaskPixels_getElem :
    ∀ (l : List Nat) (i v : Nat), l[i]? = some v →
      (editMaskPixels l)[4 * i]? = some 0 ∧
      (editMaskPixels l)[4 * i + 1]? = some 0 ∧
      (editMaskPixels l)[4 * i + 2]? = some 0 ∧
      (editMaskPixels l)[4 * i + 3]? = some (255 - v) := by
  intro l
  induction l with
  | nil => intro i v h; simp at h
  | cons head tail ih =>
    intro i v h
    cases i with
    | zero =>
      simp at h
      subst h
      simp [editMaskPixels]
    | succ j =>
      have h2 : tail[j]? = some v := by simpa using h
      have hres := ih j v h2
      have r0 : 4 * (j + 1) = 4 * j + 4 := by ring
      have r1 : 4 * (j + 1) + 1 = (4 * j + 1) + 4 := by ring
      have r2 : 4 * (j + 1) + 2 = (4 * j + 2) + 4 := by ring
      have r3 : 4 * (j + 1) + 3 = (4 * j + 3) + 4 := by ring
      rw [show editMaskPixels (head :: tail)
            = 0 :: 0 :: 0 :: (255 - head) :: editMaskPixels tail from rfl,
          r3, r2, r1, r0, cons4_getElem, cons4_getElem, cons4_getElem, cons4_getElem]
      exact hres

/-- C1: for a single-channel grayscale mask, the transmitted mask is RGBA of
the same size, every pixel has zero RGB and alpha 255 minus the grayscale
value; an all-black mask yields alpha uniformly 255 and an all-white mask
yields alpha uniformly 0. -/
theorem mask_transform_alpha (mask : Img) (hm : mask.mode = RasterMode.L)
    (hb : ∀ v ∈ mask.pixels, v ≤ 255) :
    (toEditMask mask).mode = RasterMode.RGBA ∧
    (toEditMask mask).width = mask.width ∧
    (toEditMask mask).height = mask.height ∧
    (∀ i v, mask.pixels[i]? = some v →
      (toEditMask mask).pixels[4 * i]? = some 0 ∧
      (toEditMask mask).pixels[4 * i + 1]? = some 0 ∧
      (toEditMask mask).pixels[4 * i + 2]? = some 0 ∧
      (toEditMask mask).pixels[4 * i + 3]? = some (255 - v)) ∧
    ((∀ v ∈ mask.pixels, v = 0) → ∀ i v, mask.pixels[i]? = some v →
      (toEditMask mask).pixels[4 * i + 3]? = some 255) ∧
    ((∀ v ∈ mask.pixels, v = 255) → ∀ i v, mask.pixels[i]? = some v →
      (toEditMask mask).pixels[4 * i + 3]? = some 0) := by
  have hmask : toEditMask mask
      = ⟨mask.width, mask.height, RasterMode.RGBA, editMaskPixels mask.pixels⟩ := by
    simp [toEditMask, hm]
  refine ⟨by simp [hmask], by simp [hmask], by simp [hmask], ?_, ?_, ?_⟩
  · intro i v h
    rw [hmask]
    exact editMaskPixels_getElem mask.pixels i v h
  · intro hall i v h
    have hv : v = 0 := hall v (List.getElem?_mem h)
    rw [hmask]
    have := (editMaskPixels_getElem mask.pixels i v h).2.2.2
    rw [this, hv]
  · intro hall i v h
    have hv : v = 255 := hall v (List.getElem?_mem h)
    rw [hmask]
    have := (editMaskPixels_getElem mask.pixels i v h).2.2.2
    rw [this, hv]

/-- Witness for C1 at a two-pixel grayscale mask with values 0 and 255. -/
theorem mask_transform_alpha_witness :
    (toEditMask ⟨2, 1, RasterMode.L, [0, 255]⟩).pixels[3]? = some 255 ∧
    (toEditMask ⟨2, 1, RasterMode.L, [0, 255]⟩).pixels[7]? = some 0 := by
  have h := mask_transform_alpha ⟨2, 1, RasterMode.L, [0, 255]⟩ rfl (by decide)
  exact ⟨(h.2.2.2.1 0 0 rfl).2.2.2, (h.2.2.2.1 1 255 rfl).2.2.2⟩

/-! ### Edit protocol dispatch (chat.py lines 80-88)

edit_image_with_mask computes is_gemini by testing whether the literal
family name gemini occurs in self.model_name.lower() and branches to the
embedded-chat path or the dedicated images.edits path. -/

/-- Whether the needle character sequence starts the haystack. -/
def startsWithSeq : List Char → List Char → Bool
  | [], _ => true
  | _ :: _, [] => false
  | a :: as, b :: bs => if a = b then startsWithSeq as bs else false

/-- Whether the needle occurs contiguously anywhere in the haystack: the
Python in operator on strings. -/
def containsSeq (needle : List Char) : List Char → Bool
  | [] => startsWithSeq needle []
  | c :: rest => startsWithSeq needle (c :: rest) || containsSeq needle rest

theorem startsWithSeq_iff (n : List Char) :
    ∀ h : List Char, startsWithSeq n h = true ↔ ∃ post, h = n ++ post := by
  induction n with
  | nil => intro h; simp [startsWithSeq]
  | cons a as ih =>
    intro h
    cases h with
    | nil => simp [startsWithSeq]
    | cons b bs =>
      by_cases hab : a = b
      · subst hab
        simp [startsWithSeq, ih]
      · simp only [startsWithSeq, if_neg hab]
        constructor
        · intro hfalse
          simp at hfalse
        · rintro ⟨post, hpost⟩
          rw [List.cons_append] at hpost
          injection hpost with h1 h2
          exact absurd h1.symm hab

theorem containsSeq_iff (n : List Char) :
    ∀ h : List Char, containsSeq n h = true ↔ ∃ pre post, h = pre ++ n ++ post := by
  intro h
  induction h with
  | nil =>
    simp only [containsSeq, startsWithSeq_iff]
    constructor
    · rintro ⟨post, hp⟩
      exact ⟨[], post, by simpa using hp⟩
    · rintro ⟨pre, post, hp⟩
      rcases List.append_eq_nil.mp hp.symm with ⟨h1, h2⟩
      rcases List.append_eq_nil.mp h1 with ⟨h3, h4⟩
      exact ⟨post, by simp [h4, h2]⟩
  | cons c rest ih =>
    simp only [containsSeq, Bool.or_eq_true, startsWithSeq_iff, ih]
    constructor
    · rintro (⟨post, hp⟩ | ⟨pre, post, hp⟩)
      · exact ⟨[], post, by simpa using hp⟩
      · exact ⟨c :: pre, post, by simp [hp]⟩
    · rintro ⟨pre, post, hp⟩
      cases pre with
      | nil => exact Or.inl ⟨post, by simpa using hp⟩
      | cons p ps =>
        simp at hp
        exact Or.inr ⟨ps, post, by simp [hp.2]⟩

/-- Python str.lower on the model identifier, as a character-level map. -/
def pyLower (s : String) : String := String.mk (s.data.map Char.toLower)

/-- is_gemini (chat.py line 81): the family name gemini occurs in the
lowercased model identifier. -/
def isGeminiModel (modelName : String) : Bool :=
  containsSeq "gemini".data (pyLower modelName).data

/-- The two mutually exclusive edit protocols of edit_image_with_mask. -/
inductive EditProtocol where
  | embeddedChat : EditProtocol
  | dedicatedEndpoint : EditProtocol
deriving DecidableEq, Repr

/-- The protocol selection of edit_image_with_mask (chat.py lines 80-88). -/
def editProtocol (modelName : String) : EditProtocol :=
  if isGeminiModel modelName then EditProtocol.embeddedChat
  else EditProtocol.dedicatedEndpoint

/-- C2: the edit operation selects the embedded-chat protocol exactly when
the family name gemini occurs case-insensitively in the model identifier,
and the dedicated endpoint otherwise; in particular for the two named
model ids. -/
theorem edit_dispatch_selection (modelName : String) :
    (editProtocol modelName = EditProtocol.embeddedChat ↔
      ∃ pre post, (pyLower modelName).data = pre ++ "gemini".data ++ post) ∧
    (editProtocol modelName = EditProtocol.dedicatedEndpoint ↔
      ¬ ∃ pre post, (pyLower modelName).data = pre ++ "gemini".data ++ post) ∧
    editProtocol "google/gemini-2.5-flash-image" = EditProtocol.embeddedChat ∧
    editProtocol "gpt-image-1" = EditProtocol.dedicatedEndpoint := by
  have hiff := containsSeq_iff "gemini".data (pyLower modelName).data
  have h1 : editProtocol modelName = EditProtocol.embeddedChat
      ↔ isGeminiModel modelName = true := by
    unfold editProtocol
    by_cases hg : isGeminiModel modelName <;> simp [hg]
  have h2 : editProtocol modelName = EditProtocol.dedicatedEndpoint
      ↔ ¬ isGeminiModel modelName = true := by
    unfold editProtocol
    by_cases hg : isGeminiModel modelName <;> simp [hg]
  exact ⟨h1.trans hiff, h2.trans (not_congr hiff), by decide, by decide⟩

/-! ### Provider call outcomes and response objects -/

/-- Outcome of an external Python call: a value, or an exception of any
kind. -/
inductive PyOutcome (α : Type) where
  | ok : α → PyOutcome α
  | exn : PyOutcome α

/-- A chat message object: content string and the optional images
attribute (none models hasattr returning false; a present non-list value is
collapsed to a singleton list, which drives the same branches). -/
structure MessageObj where
  content : String
  images : Option (List JVal)

/-- One entry of a chat response choices list. -/
structure ChoiceObj where
  message : MessageObj

/-- A chat completion response: its choices list. -/
structure ChatResp where
  choices : List ChoiceObj

/-! ### Content generation dispatcher (chat.py lines 39-71)

generate_content builds api_params with model and messages, adds
temperature and response_format only when they are not None, calls the
client and wraps the response: text is choices[0].message.content when
choices is nonempty, else the empty string. -/

/-- A value stored in the api_params dict. The types of temperature and
response_format are parameters, so the embedding shows they are passed
through exactly as given. -/
inductive ApiVal (α β : Type) where
  | str : String → ApiVal α β
  | json : JVal → ApiVal α β
  | temp : α → ApiVal α β
  | fmt : β → ApiVal α β

/-- The api_params dict of generate_content (chat.py lines 51-60), as an
ordered key-value list. -/
def generateApiParams {α β : Type} (modelName : String) (messages : JVal)
    (temperature : Option α) (responseFormat : Option β) :
    List (String × ApiVal α β) :=
  let ps := [("model", ApiVal.str modelName), ("messages", ApiVal.json messages)]
  let ps2 :=
    match temperature with
    | some t => ps ++ [("temperature", ApiVal.temp t)]
    | none => ps
  match responseFormat with
  | some f => ps2 ++ [("response_format", ApiVal.fmt f)]
  | none => ps2

/-- The ResponseWrapper text field (chat.py line 69): first choice content
if choices is nonempty, else the empty string. -/
def responseText (choices : List ChoiceObj) : String :=
  match choices with
  | [] => ""
  | c :: _ => c.message.content

/-- generate_content (chat.py lines 39-71): build params, call the client
(an oracle), wrap; provider errors propagate. -/
def generateContent {α β : Type}
    (call : List (String × ApiVal α β) → PyOutcome ChatResp)
    (modelName : String) (messages : JVal) (temperature : Option α)
    (responseFormat : Option β) : Except String String :=
  match call (generateApiParams modelName messages temperature responseFormat) with
  | PyOutcome.exn => Except.error "ProviderCallError"
  | PyOutcome.ok resp => Except.ok (responseText resp.choices)

/-- C8: temperature and response_format are included in the provider
request exactly as given when supplied, and entirely omitted when not. -/
theorem generate_params_passthrough {α β : Type} (modelName : String)
    (messages : JVal) (temperature : Option α) (responseFormat : Option β) :
    ((∀ t, temperature = some t → ("temperature", ApiVal.temp t)
        ∈ generateApiParams modelName messages temperature responseFormat) ∧
     (∀ v, ("temperature", v)
        ∈ generateApiParams modelName messages temperature responseFormat →
        ∃ t, temperature = some t ∧ v = ApiVal.temp t) ∧
     (temperature = none → ∀ v : ApiVal α β, ("temperature", v)
        ∉ generateApiParams modelName messages temperature responseFormat)) ∧
    ((∀ f, responseFormat = some f → ("response_format", ApiVal.fmt f)
        ∈ generateApiParams modelName messages temperature responseFormat) ∧
     (∀ v, ("response_format", v)
        ∈ generateApiParams modelName messages temperature responseFormat →
        ∃ f, responseFormat = some f ∧ v = ApiVal.fmt f) ∧
     (responseFormat = none → ∀ v : ApiVal α β, ("response_format", v)
        ∉ generateApiParams modelName messages temperature responseFormat)) := by
  cases temperature <;> cases responseFormat <;>
    simp [generateApiParams]

/-- Witness for C8: a supplied temperature appears in the request. -/
theorem generate_params_passthrough_witness :
    ("temperature", ApiVal.temp (37 : Nat))
      ∈ generateApiParams (β := Nat) "m" JVal.null (some 37) none :=
  (generate_params_passthrough "m" JVal.null (some 37) (none : Option Nat)).1.1 37 rfl

/-! ### Image edit dispatcher (chat.py lines 73-257)

The embedded-chat path (_edit_image_gemini) builds a three-part user
message, tries the SDK create call with the modalities extra_body, falls
back to a raw HTTP POST on TypeError/AttributeError, then extracts an image
reference from the response and resolves it (data URL, HTTP URL, or raw
base64). The dedicated-endpoint path (_edit_image_openai) saves the image,
builds the RGBA transparency mask, calls images.edits and decodes the first
b64_json payload. All successful returns end in convert to RGB. -/

/-- Outcome of client.chat.completions.create with extra_body: a response,
a TypeError or AttributeError (which triggers the HTTP fallback), or any
other exception (which propagates). -/
inductive CreateOutcome where
  | ok : ChatResp → CreateOutcome
  | typeErr : CreateOutcome
  | raise : CreateOutcome

/-- One entry of the images.edits result data list. -/
structure EditDataItem where
  b64Json : Option String

/-- The images.edits result: the optional data list. -/
structure EditResult where
  data : Option (List EditDataItem)

/-- The multipart request submitted to the dedicated images.edits endpoint
(chat.py lines 246-251). -/
structure EditApiReq where
  model : String
  image : List (List Nat)
  mask : List Nat
  prompt : String

/-- The external collaborators of the edit dispatcher, as oracles: the SDK
create call, the raw HTTP fallback POST returning parsed JSON, the HTTP GET
used for image URLs (status and body bytes), and the images.edits call. -/
structure EditEnv where
  create : JVal → CreateOutcome
  httpPost : JVal → PyOutcome JVal
  httpGet : String → PyOutcome (Nat × List Nat)
  imagesEdit : EditApiReq → PyOutcome EditResult

/-- The fixed mask-semantics clause appended to the prompt
(chat.py line 109). -/
def geminiMaskNote : String :=
  "\n\nUse the first image as the base image and the second image as a mask indicating which regions to edit. The white areas in the mask should be edited according to the prompt, while black areas should remain unchanged."

/-- A data URL wrapping a base64 PNG payload. -/
def dataUrlOf (b64 : String) : String := "data:image/png;base64," ++ b64

/-- The messages body of the embedded-chat edit request
(chat.py lines 103-121). -/
def geminiMessages (prompt imageB64 maskB64 : String) : JVal :=
  JVal.arr [JVal.obj [("role", JVal.s "user"),
    ("content", JVal.arr [
      JVal.obj [("type", JVal.s "text"),
        ("text", JVal.s (prompt ++ geminiMaskNote))],
      JVal.obj [("type", JVal.s "image_url"),
        ("image_url", JVal.obj [("url", JVal.s (dataUrlOf imageB64))])],
      JVal.obj [("type", JVal.s "image_url"),
        ("image_url", JVal.obj [("url", JVal.s (dataUrlOf maskB64))])]])]]

/-- MockMessage (chat.py lines 162-165): content defaults to the empty
string, images defaults to the empty list; a non-list images value behaves
as a single item. -/
def mockMessage (m : JVal) : MessageObj :=
  { content :=
      match jGet m "content" with
      | some (JVal.s s) => s
      | _ => "",
    images := some (
      match jGet m "images" with
      | some (JVal.arr l) => l
      | some JVal.null => []
      | some v => [v]
      | none => []) }

/-- MockChoice (chat.py lines 158-160): message defaults to the empty
dict. -/
def mockChoice (c : JVal) : ChoiceObj :=
  { message := mockMessage (match jGet c "message" with
      | some m => m
      | none => JVal.obj []) }

/-- MockResponse (chat.py lines 154-156): a single choice built from the
first element when the choices value is a nonempty list, else no
choices. -/
def mockResponse (data : JVal) : ChatResp :=
  match jGet data "choices" with
  | some (JVal.arr (c :: _)) => { choices := [mockChoice c] }
  | _ => { choices := [] }

/-- Image URL extraction from the first images entry
(chat.py lines 186-200): a dict with image_url (itself a dict with url, or
a plain string) or a flat url key; none models the case where image_url
stays None and the unexpected-format error is raised. -/
def extractImageUrl (imageData : JVal) : Option JVal :=
  match imageData with
  | JVal.obj kvs =>
    match kvs.lookup "image_url" with
    | some (JVal.obj urlKvs) =>
      match urlKvs.lookup "url" with
      | some u => some u
      | none => none
    | some (JVal.s u) => some (JVal.s u)
    | some _ => none
    | none =>
      match kvs.lookup "url" with
      | some u => some u
      | none => none
  | _ => none

/-- Python url.split(",", 1)[1]: the part after the first comma; none
models the IndexError when no comma is present. -/
def splitFirstComma (s : String) : Option String :=
  match s.splitOn "," with
  | _ :: r :: rs => some (String.intercalate "," (r :: rs))
  | _ => none

/-- PIL open on raw bytes followed by convert to RGB, the common tail of
every successful edit return (chat.py lines 214, 220, 257). -/
def decodeAndConvertRGB (bytesIn : List Nat) : Except String Img :=
  match pngOpen bytesIn with
  | none => Except.error "UnidentifiedImageError"
  | some im => Except.ok im.convertRGB

/-- Resolution of the extracted image URL (chat.py lines 205-220): data URL
gives the base64 payload after the comma; an HTTP URL is fetched with
raise_for_status; anything else is treated as raw base64. -/
def resolveImageUrl (env : EditEnv) (imageUrl : String) : Except String Img :=
  if imageUrl.startsWith "data:image" then
    match splitFirstComma imageUrl with
    | none => Except.error "IndexError"
    | some b64 =>
      match b64decodeStr b64 with
      | none => Except.error "binascii.Error"
      | some bytesD => decodeAndConvertRGB bytesD
  else if imageUrl.startsWith "http" then
    match env.httpGet imageUrl with
    | PyOutcome.exn => Except.error "requests.RequestException"
    | PyOutcome.ok (status, content) =>
      if 400 ≤ status then Except.error "HTTPError"
      else decodeAndConvertRGB content
  else
    match b64decodeStr imageUrl with
    | none => Except.error "binascii.Error"
    | some bytesD => decodeAndConvertRGB bytesD

/-- _edit_image_gemini (chat.py lines 90-223). -/
def editImageGemini (env : EditEnv) (image mask : Img) (prompt : String) :
    Except String Img :=
  let imageB64 := upload_image image
  let maskRgb := if mask.mode = RasterMode.RGB then mask else mask.convertRGB
  let maskB64 := upload_image maskRgb
  let messages := geminiMessages prompt imageB64 maskB64
  let respE : Except String ChatResp :=
    match env.create messages with
    | CreateOutcome.ok r => Except.ok r
    | CreateOutcome.raise => Except.error "APIError"
    | CreateOutcome.typeErr =>
      match env.httpPost messages with
      | PyOutcome.exn => Except.error "requests.RequestException"
      | PyOutcome.ok j => Except.ok (mockResponse j)
  match respE with
  | Except.error e => Except.error e
  | Except.ok resp =>
    match resp.choices with
    | [] => Except.error "Image edit returned no response"
    | choice :: _ =>
      match choice.message.images with
      | none => Except.error "Image edit returned no image data"
      | some [] => Except.error "Image edit returned no image data"
      | some (imageData :: _) =>
        match extractImageUrl imageData with
        | none => Except.error "Unexpected image format in response"
        | some (JVal.s imageUrl) => resolveImageUrl env imageUrl
        | some _ => Except.error "AttributeError"

/-- The request built and submitted by _edit_image_openai
(chat.py lines 227-251): PNG bytes of the base image, PNG bytes of the
transformed RGBA mask, prompt, model. -/
def mkOpenAIEditRequest (modelName : String) (image mask : Img)
    (prompt : String) : EditApiReq :=
  { model := modelName, image := [pngSave image],
    mask := pngSave (toEditMask mask), prompt := prompt }

/-- Parsing of the images.edits result (chat.py lines 252-257). -/
def decodeImagesEditResult (outcome : PyOutcome EditResult) : Except String Img :=
  match outcome with
  | PyOutcome.exn => Except.error "APIError"
  | PyOutcome.ok result =>
    let b64 : Option String :=
      match result.data with
      | some (first :: _) => first.b64Json
      | _ => none
    match b64 with
    | none => Except.error "Image edit returned no data"
    | some s =>
      if s = "" then Except.error "Image edit returned no data"
      else
        match b64decodeStr s with
        | none => Except.error "binascii.Error"
        | some bytesD => decodeAndConvertRGB bytesD

/-- _edit_image_openai (chat.py lines 225-257). -/
def editImageOpenAI (env : EditEnv) (modelName : String) (image mask : Img)
    (prompt : String) : Except String Img :=
  decodeImagesEditResult (env.imagesEdit (mkOpenAIEditRequest modelName image mask prompt))

/-- edit_image_with_mask (chat.py lines 73-88): dispatch on the model
identifier. -/
def editImageWithMask (env : EditEnv) (modelName : String) (image mask : Img)
    (prompt : String) : Except String Img :=
  match editProtocol modelName with
  | EditProtocol.embeddedChat => editImageGemini env image mask prompt
  | EditProtocol.dedicatedEndpoint => editImageOpenAI env modelName image mask prompt

theorem convertRGB_mode (i : Img) : (Img.convertRGB i).mode = RasterMode.RGB := by
  unfold Img.convertRGB
  cases h : i.mode <;> simp [h]

theorem convertL_width (i : Img) : (Img.convertL i).width = i.width := by
  unfold Img.convertL
  cases h : i.mode <;> simp [h]

theorem convertL_height (i : Img) : (Img.convertL i).height = i.height := by
  unfold Img.convertL
  cases h : i.mode <;> simp [h]

theorem decodeAndConvertRGB_ok (bytesIn : List Nat) (out : Img)
    (h : decodeAndConvertRGB bytesIn = Except.ok out) : out.mode = RasterMode.RGB := by
  unfold decodeAndConvertRGB at h
  cases hp : pngOpen bytesIn with
  | none => rw [hp] at h; simp at h
  | some im =>
    rw [hp] at h
    simp at h
    rw [← h]
    exact convertRGB_mode im

theorem resolveImageUrl_ok (env : EditEnv) (url : String) (out : Img)
    (h : resolveImageUrl env url = Except.ok out) : out.mode = RasterMode.RGB := by
  unfold resolveImageUrl at h
  repeat' split at h
  all_goals first
    | simp at h
    | exact decodeAndConvertRGB_ok _ _ h

theorem editImageGemini_ok (env : EditEnv) (image mask : Img) (prompt : String)
    (out : Img) (h : editImageGemini env image mask prompt = Except.ok out) :
    out.mode = RasterMode.RGB := by
  simp only [editImageGemini] at h
  repeat' split at h
  all_goals first
    | simp at h
    | exact resolveImageUrl_ok _ _ _ h

theorem decodeImagesEditResult_ok (outcome : PyOutcome EditResult) (out : Img)
    (h : decodeImagesEditResult outcome = Except.ok out) :
    out.mode = RasterMode.RGB := by
  simp only [decodeImagesEditResult] at h
  repeat' split at h
  all_goals first
    | simp at h
    | exact decodeAndConvertRGB_ok _ _ h

/-- C4: whichever protocol is taken, including the HTTP fallback and the
URL-fetch sub-paths, a successful edit always returns an image in the fixed
3-channel RGB mode, any alpha dropped. -/
theorem edit_returns_rgb (env : EditEnv) (modelName : String) (image mask : Img)
    (prompt : String) (out : Img)
    (h : editImageWithMask env modelName image mask prompt = Except.ok out) :
    out.mode = RasterMode.RGB := by
  unfold editImageWithMask at h
  cases hp : editProtocol modelName <;> rw [hp] at h
  · exact editImageGemini_ok env image mask prompt out h
  · unfold editImageOpenAI at h
    exact decodeImagesEditResult_ok _ _ h

/-- Oracle environment for the C4 witness: the dedicated endpoint answers
with the base64 PNG of a one-pixel grayscale image. -/
def envW4 : EditEnv :=
  { create := fun _ => CreateOutcome.raise,
    httpPost := fun _ => PyOutcome.exn,
    httpGet := fun _ => PyOutcome.exn,
    imagesEdit := fun _ =>
      PyOutcome.ok ⟨some [⟨some (upload_image ⟨1, 1, RasterMode.L, [7]⟩)⟩]⟩ }

/-- Witness for C4 on a concrete successful dedicated-endpoint edit. -/
theorem edit_returns_rgb_witness :
    (⟨1, 1, RasterMode.RGB, [7, 7, 7]⟩ : Img).mode = RasterMode.RGB :=
  edit_returns_rgb envW4 "gpt-image-1" ⟨1, 1, RasterMode.L, [0]⟩
    ⟨1, 1, RasterMode.L, [0]⟩ "p" ⟨1, 1, RasterMode.RGB, [7, 7, 7]⟩ (by rfl)

/-! ### C5: behavior on a response with empty choices

The spec describes a normalized-response union with an Empty kind. The code
has no such union: generate_content wraps an empty-choices response as the
empty string (chat.py line 69), and _edit_image_gemini raises RuntimeError
(chat.py lines 170-172). -/

/-- Oracle environment whose create call answers with empty choices. -/
def envEmptyChoices : EditEnv :=
  { create := fun _ => CreateOutcome.ok ⟨[]⟩,
    httpPost := fun _ => PyOutcome.exn,
    httpGet := fun _ => PyOutcome.exn,
    imagesEdit := fun _ => PyOutcome.exn }

/-- Counterexample to C5: at the concrete empty-choices response, the
content-generation wrapper yields a text result that is the empty string,
and the embedded-chat edit path raises an error; neither is an Empty kind
of a normalized union, which does not exist in the code. -/
theorem empty_choices_counterexample :
    generateContent (fun _ => PyOutcome.ok ⟨[]⟩) "m" JVal.null
      (none : Option Nat) (none : Option Nat) = Except.ok "" ∧
    editImageGemini envEmptyChoices ⟨1, 1, RasterMode.L, [0]⟩
      ⟨1, 1, RasterMode.L, [0]⟩ "p"
      = Except.error "Image edit returned no response" :=
  ⟨rfl, rfl⟩

/-- C5 amended: for a provider response with an empty choices list, the
content-generation wrapper returns a text result equal to the empty string
(no distinct Empty kind exists), and the embedded-chat edit path raises an
error instead of returning a value. -/
theorem empty_choices_yields_empty_text_or_error :
    (∀ {α β : Type} (call : List (String × ApiVal α β) → PyOutcome ChatResp)
      (modelName : String) (messages : JVal) (t : Option α) (rf : Option β),
      (∀ ps, call ps = PyOutcome.ok ⟨[]⟩) →
      generateContent call modelName messages t rf = Except.ok "") ∧
    (∀ (env : EditEnv) (image mask : Img) (prompt : String),
      (∀ m, env.create m = CreateOutcome.ok ⟨[]⟩) →
      editImageGemini env image mask prompt
        = Except.error "Image edit returned no response") := by
  constructor
  · intro α β call modelName messages t rf hcall
    simp [generateContent, hcall, responseText]
  · intro env image mask prompt hc
    simp [editImageGemini, hc]

/-- Witness for the amended C5 at a concrete environment. -/
theorem empty_choices_yields_empty_text_or_error_witness :
    editImageGemini envEmptyChoices ⟨2, 2, RasterMode.RGB, List.replicate 12 5⟩
      ⟨2, 2, RasterMode.L, List.replicate 4 0⟩ "p"
      = Except.error "Image edit returned no response" :=
  empty_choices_yields_empty_text_or_error.2 envEmptyChoices _ _ "p" (fun _ => rfl)

/-! ### C6: no dimension check in the mask transform

The spec asserts a DimensionMismatchError when mask dimensions differ from
the base image dimensions. _edit_image_openai (chat.py lines 225-257)
performs no dimension comparison at all: the transform and the provider
call proceed for any dimensions. -/

/-- Oracle environment for C6: the dedicated endpoint answers with the
base64 PNG of a one-pixel grayscale image. -/
def envW6 : EditEnv :=
  { create := fun _ => CreateOutcome.raise,
    httpPost := fun _ => PyOutcome.exn,
    httpGet := fun _ => PyOutcome.exn,
    imagesEdit := fun _ =>
      PyOutcome.ok ⟨some [⟨some (upload_image ⟨1, 1, RasterMode.L, [9]⟩)⟩]⟩ }

/-- Counterexample to C6: a 1 by 1 mask against a 2 by 2 base image; the
dedicated-endpoint edit proceeds and returns successfully, with no
dimension-mismatch failure. -/
theorem no_dimension_check_counterexample :
    (⟨1, 1, RasterMode.L, [0]⟩ : Img).width
      ≠ (⟨2, 2, RasterMode.RGB, List.replicate 12 0⟩ : Img).width ∧
    editImageOpenAI envW6 "gpt-image-1" ⟨2, 2, RasterMode.RGB, List.replicate 12 0⟩
      ⟨1, 1, RasterMode.L, [0]⟩ "p"
      = Except.ok ⟨1, 1, RasterMode.RGB, [9, 9, 9]⟩ :=
  ⟨by decide, rfl⟩

/-- C6 amended: the mask transform has no failure modes at all; it performs
no dimension check, and when the mask dimensions differ from the base
image dimensions it silently proceeds: the transform yields an RGBA mask
with the mask own dimensions and the provider request is still issued
unchanged. -/
theorem mask_transform_no_dimension_check (image mask : Img) (prompt modelName : String)
    (hmismatch : mask.width ≠ image.width ∨ mask.height ≠ image.height) :
    (toEditMask mask).width = mask.width ∧
    (toEditMask mask).height = mask.height ∧
    (toEditMask mask).mode = RasterMode.RGBA ∧
    (∀ env : EditEnv, editImageOpenAI env modelName image mask prompt
      = decodeImagesEditResult
          (env.imagesEdit (mkOpenAIEditRequest modelName image mask prompt))) := by
  refine ⟨?_, ?_, rfl, fun env => rfl⟩
  · unfold toEditMask
    by_cases hm : mask.mode = RasterMode.L
    · simp [hm]
    · simp [hm, convertL_width]
  · unfold toEditMask
    by_cases hm : mask.mode = RasterMode.L
    · simp [hm]
    · simp [hm, convertL_height]

/-- Witness for the amended C6 at mismatched concrete dimensions. -/
theorem mask_transform_no_dimension_check_witness :
    (toEditMask ⟨1, 1, RasterMode.L, [0]⟩).mode = RasterMode.RGBA :=
  (mask_transform_no_dimension_check ⟨2, 2, RasterMode.RGB, List.replicate 12 0⟩
    ⟨1, 1, RasterMode.L, [0]⟩ "p" "gpt-image-1" (Or.inl (by decide))).2.2.1

/-! ### OCR refinement pass (deepseek_refine.py)

refine walks the region list; per region it reads the vertices, computes
the bounding box, crops the image (an external PIL call), posts the crop to
the remote endpoint via _post_image, and emits a fresh dict with only text
replaced; any exception in the per-region body appends the original item.
Region dicts live in an explicit heap (a list of dicts) and the region list
holds heap indices, so that object identity and freshness are visible. -/

/-- A polygon vertex as stored in a region dict. -/
structure Vertex where
  x : Int
  y : Int
deriving DecidableEq, Repr

/-- A PaddleOCR region dict: the vertices and text entries the refiner
reads, plus the remaining entries it copies untouched. A none field models
an absent key. -/
structure RegionDict where
  vertices : Option (List Vertex)
  text : Option String
  extra : List (String × String)
deriving DecidableEq, Repr

/-- The allocation heap of region dicts; region lists hold indices into
it. -/
abbrev RegionHeap := List RegionDict

/-- The HTTP POST issued by _post_image: url, the JSON payload fields, and
the timeout argument. -/
structure HttpReq where
  url : String
  prompt : String
  imageB64 : String
  timeout : Nat
deriving DecidableEq, Repr

/-- An HTTP response: status code, the parsed JSON body (none models a body
on which resp.json() raises), and the raw text body. -/
structure HttpResp where
  status : Nat
  jsonBody : Option JVal
  textBody : String

/-- External collaborators of the refiner: the HTTP transport and the PIL
crop call on the source image (given the bounding box), either of which can
raise. -/
structure OcrEnv where
  http : HttpReq → PyOutcome HttpResp
  crop : Img → Int → Int → Int → Int → PyOutcome Img

/-- _encode_image_b64 (deepseek_refine.py lines 21-24): PNG bytes, base64
text. -/
def encodeImageB64 (img : Img) : String := b64encodeStr (pngSave img)

/-- Python str.strip, modelled as whitespace trim. -/
def pyStrip (s : String) : String := s.trim

/-- The JSON-body interpretation of _post_image
(deepseek_refine.py lines 34-43): a dict text string field, else the first
entry of a dict outputs list, else the raw response text. -/
def parseOcrJson (data : JVal) (rawText : String) : String :=
  match data with
  | JVal.obj kvs =>
    match kvs.lookup "text" with
    | some (JVal.s t) => pyStrip t
    | _ =>
      match kvs.lookup "outputs" with
      | some (JVal.arr (first :: _)) =>
        match first with
        | JVal.obj fkvs =>
          match fkvs.lookup "text" with
          | some v => pyStrip (pyStr v)
          | none => pyStrip rawText
        | _ => pyStrip rawText
      | _ => pyStrip rawText
  | _ => pyStrip rawText

/-- _post_image (deepseek_refine.py lines 26-45): no endpoint gives none;
the POST carries the prompt, the base64 crop and timeout 30; any transport
exception, a non-200 status, or a body on which resp.json() raises gives
none; otherwise the parsed text. The issued request is returned alongside
so theorems can inspect it. -/
def postImage (env : OcrEnv) (endpoint : Option String) (img : Img)
    (prompt : String) : Option HttpReq × Option String :=
  match endpoint with
  | none => (none, none)
  | some url =>
    if url = "" then (none, none)
    else
      let req : HttpReq := ⟨url, prompt, encodeImageB64 img, 30⟩
      match env.http req with
      | PyOutcome.exn => (some req, none)
      | PyOutcome.ok resp =>
        if resp.status ≠ 200 then (some req, none)
        else
          match resp.jsonBody with
          | none => (some req, none)
          | some data => (some req, some (parseOcrJson data resp.textBody))

/-- The fixed instruction prompt of refine (deepseek_refine.py line 67);
the Python literal contains a backslash and an n, not a newline. -/
def ocrPrompt : String := "<image>\\nFree OCR."

/-- Python min or max over the polygon coordinates: fold over the tail
starting from the first vertex. -/
def foldCoord (f : Vertex → Int) (op : Int → Int → Int) (v : Vertex)
    (vs : List Vertex) : Int :=
  vs.foldl (fun a w => op a (f w)) (f v)

/-- bool(self.endpoint): configured means a present, nonempty endpoint. -/
def ocrEnabled (endpoint : Option String) : Bool :=
  match endpoint with
  | none => false
  | some s => !(s == "")

/-- The body of one iteration of the refine loop
(deepseek_refine.py lines 53-75) over the heap: missing or empty vertices
pass the item through (same index); a crop exception passes the item
through; otherwise a fresh dict that copies the item with only text
replaced is allocated and its index emitted. -/
def refineOne (env : OcrEnv) (endpoint : Option String) (image : Img)
    (σ : RegionHeap) (i : Nat) : RegionHeap × Nat :=
  match σ[i]? with
  | none => (σ, i)
  | some item =>
    match item.vertices with
    | none => (σ, i)
    | some [] => (σ, i)
    | some (v :: vs) =>
      let minX := foldCoord (fun w => w.x) min v vs
      let minY := foldCoord (fun w => w.y) min v vs
      let maxX := foldCoord (fun w => w.x) max v vs
      let maxY := foldCoord (fun w => w.y) max v vs
      match env.crop image minX minY maxX maxY with
      | PyOutcome.exn => (σ, i)
      | PyOutcome.ok cropImg =>
        let res := (postImage env endpoint cropImg ocrPrompt).2
        let deepseekText :=
          match res with
          | some s => if s = "" then item.text.getD "" else s
          | none => item.text.getD ""
        (σ ++ [{ item with text := some deepseekText }], σ.length)

/-- The refine loop over a list of region indices, threading the heap. -/
def refineLoop (env : OcrEnv) (endpoint : Option String) (image : Img) :
    RegionHeap → List Nat → RegionHeap × List Nat
  | σ, [] => (σ, [])
  | σ, i :: rest =>
    let r1 := refineOne env endpoint image σ i
    let r2 := refineLoop env endpoint image r1.1 rest
    (r2.1, r1.2 :: r2.2)

/-- DeepSeekOCRRefiner.refine (deepseek_refine.py lines 47-76): a no-op
when the endpoint is unconfigured, else the loop. -/
def refine (env : OcrEnv) (endpoint : Option String) (σ : RegionHeap)
    (refs : List Nat) (image : Img) : RegionHeap × List Nat :=
  if ocrEnabled endpoint then refineLoop env endpoint image σ refs
  else (σ, refs)

theorem getElem?_append_lt {α : Type} (l m : List α) (n : Nat) (h : n < l.length) :
    (l ++ m)[n]? = l[n]? := by
  rw [List.getElem?_append, if_pos h]

theorem refineOne_cases (env : OcrEnv) (endpoint : Option String) (image : Img)
    (σ : RegionHeap) (i : Nat) :
    refineOne env endpoint image σ i = (σ, i) ∨
    (∃ item s, σ[i]? = some item ∧
      refineOne env endpoint image σ i
        = (σ ++ [{ item with text := some s }], σ.length)) := by
  cases h1 : σ[i]? with
  | none => exact Or.inl (by simp [refineOne, h1])
  | some item =>
    cases h2 : item.vertices with
    | none => exact Or.inl (by simp [refineOne, h1, h2])
    | some vl =>
      cases vl with
      | nil => exact Or.inl (by simp [refineOne, h1, h2])
      | cons v vs =>
        cases h3 : env.crop image
            (foldCoord (fun w => w.x) min v vs) (foldCoord (fun w => w.y) min v vs)
            (foldCoord (fun w => w.x) max v vs) (foldCoord (fun w => w.y) max v vs) with
        | exn => exact Or.inl (by simp [refineOne, h1, h2, h3])
        | ok cropImg =>
          refine Or.inr ⟨item,
            (match (postImage env endpoint cropImg ocrPrompt).2 with
              | some s => if s = "" then item.text.getD "" else s
              | none => item.text.getD ""), rfl, ?_⟩
          simp [refineOne, h1, h2, h3]

theorem refineOne_extends (env : OcrEnv) (endpoint : Option String) (image : Img)
    (σ : RegionHeap) (i : Nat) :
    ∃ Δ, (refineOne env endpoint image σ i).1 = σ ++ Δ := by
  rcases refineOne_cases env endpoint image σ i with h | ⟨item, s, _, h⟩
  · exact ⟨[], by simp [h]⟩
  · exact ⟨[{ item with text := some s }], by simp [h]⟩

theorem refineLoop_extends (env : OcrEnv) (endpoint : Option String) (image : Img) :
    ∀ (refs : List Nat) (σ : RegionHeap),
      ∃ Δ, (refineLoop env endpoint image σ refs).1 = σ ++ Δ := by
  intro refs
  induction refs with
  | nil => exact fun σ => ⟨[], by simp [refineLoop]⟩
  | cons i rest ih =>
    intro σ
    obtain ⟨Δ1, h1⟩ := refineOne_extends env endpoint image σ i
    obtain ⟨Δ2, h2⟩ := ih (refineOne env endpoint image σ i).1
    refine ⟨Δ1 ++ Δ2, ?_⟩
    show (refineLoop env endpoint image (refineOne env endpoint image σ i).1 rest).1
      = σ ++ (Δ1 ++ Δ2)
    rw [h2, h1, List.append_assoc]

theorem refineLoop_preserves (env : OcrEnv) (endpoint : Option String) (image : Img) :
    ∀ (refs : List Nat) (σ : RegionHeap) (j : Nat), j < σ.length →
      ((refineLoop env endpoint image σ refs).1)[j]? = σ[j]? := by
  intro refs
  induction refs with
  | nil => intro σ j hj; rfl
  | cons i rest ih =>
    intro σ j hj
    obtain ⟨Δ1, h1⟩ := refineOne_extends env endpoint image σ i
    have hlen : j < ((refineOne env endpoint image σ i).1).length := by
      rw [h1, List.length_append]; omega
    calc ((refineLoop env endpoint image σ (i :: rest)).1)[j]?
        = ((refineLoop env endpoint image (refineOne env endpoint image σ i).1 rest).1)[j]? := by
          simp [refineLoop]
      _ = ((refineOne env endpoint image σ i).1)[j]? := ih _ j hlen
      _ = σ[j]? := by rw [h1, getElem?_append_lt _ _ _ hj]

theorem refineLoop_correspond (env : OcrEnv) (endpoint : Option String) (image : Img) :
    ∀ (refs : List Nat) (σ : RegionHeap), (∀ r ∈ refs, r < σ.length) →
      ∀ k, (hk : k < refs.length) →
        ((refineLoop env endpoint image σ refs).2)[k]? = some refs[k] ∨
        (∃ j item s, ((refineLoop env endpoint image σ refs).2)[k]? = some j ∧
          σ.length ≤ j ∧ σ[refs[k]]? = some item ∧
          ((refineLoop env endpoint image σ refs).1)[j]?
            = some { item with text := some s }) := by
  intro refs
  induction refs with
  | nil => intro σ _ k hk; simp at hk
  | cons i rest ih =>
    intro σ hval k hk
    cases k with
    | zero =>
      rcases refineOne_cases env endpoint image σ i with hone | ⟨item, s, hlook, hone⟩
      · left
        show ((refineLoop env endpoint image σ (i :: rest)).2)[0]? = some (i :: rest)[0]
        simp [refineLoop, hone]
      · right
        refine ⟨σ.length, item, s, ?_, le_refl _, ?_, ?_⟩
        · show ((refineLoop env endpoint image σ (i :: rest)).2)[0]? = some σ.length
          simp [refineLoop, hone]
        · show σ[(i :: rest)[0]]? = some item
          simpa using hlook
        · show ((refineLoop env endpoint image σ (i :: rest)).1)[σ.length]?
            = some { item with text := some s }
          have hp : σ.length < ((refineOne env endpoint image σ i).1).length := by
            rw [hone]
            simp
          have hpres := refineLoop_preserves env endpoint image rest
            (refineOne env endpoint image σ i).1 σ.length hp
          calc ((refineLoop env endpoint image σ (i :: rest)).1)[σ.length]?
              = ((refineLoop env endpoint image
                  (refineOne env endpoint image σ i).1 rest).1)[σ.length]? := by
                simp only [refineLoop]
            _ = ((refineOne env endpoint image σ i).1)[σ.length]? := hpres
            _ = some { item with text := some s } := by
                rw [hone]
                exact List.getElem?_concat_length σ _
    | succ k1 =>
      obtain ⟨Δ1, h1⟩ := refineOne_extends env endpoint image σ i
      have hval2 : ∀ r ∈ rest, r < ((refineOne env endpoint image σ i).1).length := by
        intro r hr
        rw [h1, List.length_append]
        have := hval r (by simp [hr])
        omega
      have hk1 : k1 < rest.length := by simpa using hk
      have hrk : rest[k1] < σ.length := hval _ (by simp [List.getElem_mem hk1])
      rcases ih (refineOne env endpoint image σ i).1 hval2 k1 hk1 with
        hl | ⟨j, item, s, ho, hj, hlook, hheap⟩
      · left
        show ((refineLoop env endpoint image σ (i :: rest)).2)[k1 + 1]?
          = some (i :: rest)[k1 + 1]
        simp only [refineLoop, List.getElem?_cons_succ]
        simpa using hl
      · right
        refine ⟨j, item, s, ?_, ?_, ?_, ?_⟩
        · show ((refineLoop env endpoint image σ (i :: rest)).2)[k1 + 1]? = some j
          simp only [refineLoop, List.getElem?_cons_succ]
          exact ho
        · have hσ1 : σ.length ≤ ((refineOne env endpoint image σ i).1).length := by
            rw [h1, List.length_append]
            omega
          exact le_trans hσ1 hj
        · show σ[(i :: rest)[k1 + 1]]? = some item
          have := hlook
          rw [h1, getElem?_append_lt _ _ _ hrk] at this
          simpa using this
        · show ((refineLoop env endpoint image σ (i :: rest)).1)[j]?
            = some { item with text := some s }
          simp only [refineLoop]
          exact hheap

/-- C10: refine never mutates its input: every dict present in the heap
before the call is unchanged after it, and each output entry is either the
original input region (same reference) or a freshly allocated dict that
copies the original with only text replaced. -/
theorem refine_never_mutates_input (env : OcrEnv) (endpoint : Option String)
    (σ : RegionHeap) (refs : List Nat) (image : Img) :
    (∀ j, j < σ.length → ((refine env endpoint σ refs image).1)[j]? = σ[j]?) ∧
    ((∀ r ∈ refs, r < σ.length) → ∀ k, (hk : k < refs.length) →
      ((refine env endpoint σ refs image).2)[k]? = some refs[k] ∨
      (∃ j item s, ((refine env endpoint σ refs image).2)[k]? = some j ∧
        σ.length ≤ j ∧ σ[refs[k]]? = some item ∧
        ((refine env endpoint σ refs image).1)[j]?
          = some { item with text := some s })) := by
  unfold refine
  by_cases he : ocrEnabled endpoint
  · simp only [he, if_true]
    exact ⟨fun j hj => refineLoop_preserves env endpoint image refs σ j hj,
      fun hval k hk => refineLoop_correspond env endpoint image refs σ hval k hk⟩
  · simp only [he, if_false]
    exact ⟨fun j hj => rfl,
      fun hval k hk => Or.inl (List.getElem?_eq_getElem hk)⟩

/-- Oracle environment for the C10 witness. -/
def envW10 : OcrEnv :=
  { http := fun _ => PyOutcome.exn, crop := fun _ _ _ _ _ => PyOutcome.exn }

/-- Region dict for the C10 witness. -/
def itemW10 : RegionDict := ⟨some [⟨0, 0⟩], some "keep", [("score", "high")]⟩

/-- Witness for C10: the input dict is unchanged in the heap after the
pass. -/
theorem refine_never_mutates_input_witness :
    ((refine envW10 (some "http://ocr") [itemW10] [0]
        ⟨1, 1, RasterMode.L, [0]⟩).1)[0]? = some itemW10 :=
  ((refine_never_mutates_input envW10 (some "http://ocr") [itemW10] [0]
      ⟨1, 1, RasterMode.L, [0]⟩).1 0 (by decide)).trans rfl

theorem postImage_fst (env : OcrEnv) (endpoint : Option String) (img : Img)
    (prompt : String) :
    (postImage env endpoint img prompt).1 = none ∨
    ∃ url, endpoint = some url ∧ ¬ url = "" ∧
      (postImage env endpoint img prompt).1
        = some ⟨url, prompt, encodeImageB64 img, 30⟩ := by
  cases hep : endpoint with
  | none => exact Or.inl (by simp [postImage])
  | some url =>
    by_cases hu : url = ""
    · exact Or.inl (by simp [postImage, hu])
    · refine Or.inr ⟨url, rfl, hu, ?_⟩
      simp only [postImage, if_neg hu]
      cases hh : env.http ⟨url, prompt, encodeImageB64 img, 30⟩ with
      | exn => rfl
      | ok resp =>
        by_cases hs : resp.status ≠ 200
        · simp [hs]
        · simp only [hs, if_false]
          cases resp.jsonBody <;> rfl

theorem postImage_none_of_exn (env : OcrEnv) (url : String) (img : Img)
    (prompt : String) (hu : ¬ url = "")
    (hh : env.http ⟨url, prompt, encodeImageB64 img, 30⟩ = PyOutcome.exn) :
    (postImage env (some url) img prompt).2 = none := by
  simp [postImage, hu, hh]

theorem postImage_none_of_status (env : OcrEnv) (url : String) (img : Img)
    (prompt : String) (hu : ¬ url = "") (resp : HttpResp)
    (hh : env.http ⟨url, prompt, encodeImageB64 img, 30⟩ = PyOutcome.ok resp)
    (hs : resp.status ≠ 200) :
    (postImage env (some url) img prompt).2 = none := by
  simp [postImage, hu, hh, hs]

theorem refineOne_keeps_text_on_none (env : OcrEnv) (endpoint : Option String)
    (image : Img) (σ : RegionHeap) (i : Nat) (item : RegionDict) (v : Vertex)
    (vs : List Vertex) (t : String) (cropImg : Img)
    (h1 : σ[i]? = some item) (h2 : item.vertices = some (v :: vs))
    (h3 : item.text = some t)
    (hcrop : env.crop image
      (foldCoord (fun w => w.x) min v vs) (foldCoord (fun w => w.y) min v vs)
      (foldCoord (fun w => w.x) max v vs) (foldCoord (fun w => w.y) max v vs)
      = PyOutcome.ok cropImg)
    (hpost : (postImage env endpoint cropImg ocrPrompt).2 = none) :
    refineOne env endpoint image σ i = (σ ++ [item], σ.length) := by
  have heta : RegionDict.mk (some (v :: vs)) (some (item.text.getD "")) item.extra
      = item := by
    cases item
    simp at h2 h3
    simp [h2, h3]
  simp [refineOne, h1, h2, hcrop, hpost, heta]

/-- C7: the remote OCR POST is always issued with timeout 30, a transport
exception or a non-200 status yields no refinement from _post_image, and in
that case the refine loop emits a fresh region carrying the original text,
with no failure propagating. -/
theorem remote_ocr_timeout_and_recovery (env : OcrEnv) (endpoint : Option String)
    (img : Img) (prompt : String) :
    (∀ req, (postImage env endpoint img prompt).1 = some req → req.timeout = 30) ∧
    (∀ url, endpoint = some url → ¬ url = "" →
      (env.http ⟨url, prompt, encodeImageB64 img, 30⟩ = PyOutcome.exn →
        (postImage env endpoint img prompt).2 = none) ∧
      (∀ resp, env.http ⟨url, prompt, encodeImageB64 img, 30⟩ = PyOutcome.ok resp →
        resp.status ≠ 200 → (postImage env endpoint img prompt).2 = none)) ∧
    (∀ (image : Img) (σ : RegionHeap) (i : Nat) (item : RegionDict) (v : Vertex)
      (vs : List Vertex) (t : String) (cropImg : Img),
      σ[i]? = some item → item.vertices = some (v :: vs) → item.text = some t →
      env.crop image
        (foldCoord (fun w => w.x) min v vs) (foldCoord (fun w => w.y) min v vs)
        (foldCoord (fun w => w.x) max v vs) (foldCoord (fun w => w.y) max v vs)
        = PyOutcome.ok cropImg →
      (postImage env endpoint cropImg ocrPrompt).2 = none →
      refineOne env endpoint image σ i = (σ ++ [item], σ.length)) := by
  refine ⟨?_, ?_, ?_⟩
  · intro req hreq
    rcases postImage_fst env endpoint img prompt with h | ⟨url, _, _, h⟩
    · rw [h] at hreq; cases hreq
    · rw [h] at hreq
      injection hreq with hreq
      rw [← hreq]
  · intro url hep hu
    subst hep
    exact ⟨postImage_none_of_exn env url img prompt hu,
      fun resp hh hs => postImage_none_of_status env url img prompt hu resp hh hs⟩
  · intro image σ i item v vs t cropImg h1 h2 h3 hcrop hpost
    exact refineOne_keeps_text_on_none env endpoint image σ i item v vs t cropImg
      h1 h2 h3 hcrop hpost

/-- Oracle environment for the C7 witness: the transport always raises. -/
def envW7 : OcrEnv :=
  { http := fun _ => PyOutcome.exn,
    crop := fun _ _ _ _ _ => PyOutcome.ok ⟨1, 1, RasterMode.L, [3]⟩ }

/-- Region dict for the C7 witness. -/
def itemW7 : RegionDict := ⟨some [⟨0, 0⟩], some "orig", []⟩

/-- Witness for C7: on transport failure the loop re-emits the region with
its original text. -/
theorem remote_ocr_timeout_and_recovery_witness :
    refineOne envW7 (some "http://ocr") ⟨1, 1, RasterMode.L, [0]⟩ [itemW7] 0
      = ([itemW7, itemW7], 1) :=
  (remote_ocr_timeout_and_recovery envW7 (some "http://ocr")
      ⟨1, 1, RasterMode.L, [3]⟩ ocrPrompt).2.2
    ⟨1, 1, RasterMode.L, [0]⟩ [itemW7] 0 itemW7 ⟨0, 0⟩ [] "orig"
    ⟨1, 1, RasterMode.L, [3]⟩ rfl rfl rfl rfl rfl
